import Mathlib

/-!
# slack-uptime-monitor: a shallow embedding of the check engine

The Go program probes HTTP targets, keeps the last result of every target in
a JSON state file, and sends a Slack message when a target changes state.

Conventions of the embedding

* A Go pointer that may be `nil` is an `Option`; a Go map that may be `nil`
  is an `Option` of an association list with unique-key update.
* A run-time panic (nil dereference, write to a nil map) is an explicit
  `Except.error`; a Go `(value, error)` pair is a pair of options.
* `time.Time` is an `Int` (nanoseconds on the wall clock, `UTC()` strips the
  monotonic reading); `time.Duration` is an `Int` that is kept inside the
  int64 range by explicit wrapping or saturation.
* What the standard library or the network decides (file reads, JSON and
  YAML decoding, `url.Parse`, the HTTP round trip, the Slack call) enters the
  model as an explicit outcome value.
-/

namespace UptimeMonitor

/-! ## Basic types -/

/-- Wall-clock instant in nanoseconds (`time.Time` after `UTC()`). -/
abbrev Time := Int

/-- Run-time panics the modelled code can raise. -/
inductive Panic where
  | nilDereference
  | nilMapAssign
  deriving DecidableEq, Repr

/-- Parsed URL (`*url.URL`): its `String()` form and its `Hostname()`. -/
structure URL where
  text : String
  hostname : String
  deriving DecidableEq, Repr

/-- Go `NotificationConfig` of config.go. -/
structure NotificationConfig where
  SlackChannels : List String
  SlackMentions : List String
  deriving DecidableEq, Repr

/-- Go `Healthcheck` of config.go. -/
structure Healthcheck where
  ID : String
  URL : URL
  Name : String
  Notify : NotificationConfig
  deriving DecidableEq, Repr

/-- Go `Config` of config.go: a slice of `*Healthcheck`, each possibly nil. -/
structure Config where
  Healthchecks : List (Option Healthcheck)
  deriving DecidableEq, Repr

/-- Go `HealthcheckResult` of healthcheck.go. -/
structure HealthcheckResult where
  Healthcheck : Healthcheck
  Time : Time
  OK : Bool
  Message : String
  deriving DecidableEq, Repr

/-! ## storage.go -/

/-- Go `StorageStatus` with its three constants. -/
inductive StorageStatus where
  | NoChange
  | Added
  | Updated
  deriving DecidableEq, Repr

/-- Go `StorageItemModelJSON`: one persisted record. -/
structure StorageItemModelJSON where
  Time : Time
  OK : Bool
  Message : String
  deriving DecidableEq, Repr

/-- A non-nil Go `map[string]*StorageItemModelJSON`: keys with their
(possibly nil) record pointers. -/
abbrev UrlMap := List (String × Option StorageItemModelJSON)

/-- Map index expression `m[k]` with the comma-ok form: `none` when the key is
absent, `some p` when it is present with pointer `p`. -/
def UrlMap.get : UrlMap → String → Option (Option StorageItemModelJSON)
  | [], _ => none
  | (k, v) :: rest, key => if k = key then some v else UrlMap.get rest key

/-- Map assignment `m[k] = v`: replaces the entry of `k` or adds one. -/
def UrlMap.set : UrlMap → String → Option StorageItemModelJSON → UrlMap
  | [], key, v => [(key, v)]
  | (k, w) :: rest, key, v =>
    if k = key then (key, v) :: rest else (k, w) :: UrlMap.set rest key v

/-- Go `StorageModelJSON`: the root object; `Urls` is `none` for a nil map. -/
structure StorageModelJSON where
  Urls : Option UrlMap
  deriving DecidableEq, Repr

/-- What `ioutil.ReadFile` followed by `json.Unmarshal` finds at
`StoragePath`. -/
inductive StorageFile where
  /-- Go `ReadFile` fails with a not-exist error. -/
  | absent
  /-- Go `ReadFile` fails with another error. -/
  | unreadable
  /-- Go `json.Unmarshal` returns an error. -/
  | malformed
  /-- Go `json.Unmarshal` succeeds and fills this model. -/
  | decoded (m : StorageModelJSON)
  deriving DecidableEq, Repr

/-- What `json.MarshalIndent` followed by `ioutil.WriteFile` does. -/
inductive WriteOutcome where
  /-- Go `MarshalIndent` fails: nothing is written. -/
  | marshalError
  /-- Go `WriteFile` fails, leaving `left` on disk. -/
  | writeError (left : StorageFile)
  /-- The file now holds the model. -/
  | written
  deriving DecidableEq, Repr

/-- The freshly made empty model of the three error branches. -/
def emptyModel : StorageModelJSON := { Urls := some [] }

/-- Go `Storage.readModel`. -/
def Storage.readModel : StorageFile → StorageModelJSON
  | .absent => emptyModel
  | .unreadable => emptyModel
  | .malformed => emptyModel
  | .decoded m => m

/-- Go `Storage.writeModel`. -/
def Storage.writeModel (file : StorageFile) (model : StorageModelJSON) :
    WriteOutcome → StorageFile
  | .marshalError => file
  | .writeError left => left
  | .written => .decoded model

/-- The record written through the `item` pointer at the end of `Update`. -/
def itemOf (r : HealthcheckResult) : StorageItemModelJSON :=
  { Time := r.Time, OK := r.OK, Message := r.Message }

/-- Body of `Storage.Update` between `readModel` and `writeModel`: the
classification and the model handed to `writeModel`. -/
def Storage.updateModel (model : StorageModelJSON) (r : HealthcheckResult) :
    Except Panic (StorageStatus × StorageModelJSON) :=
  match model.Urls with
  | none =>
    -- reading a nil map reports "not exists"; the Added branch then assigns
    -- into the nil map
    .error .nilMapAssign
  | some m =>
    match m.get r.Healthcheck.ID with
    | some (some item) =>
      -- exists: the three field stores go through the pointer held by the map
      let status :=
        if r.OK != item.OK then StorageStatus.Updated else StorageStatus.NoChange
      .ok (status, { Urls := some (m.set r.Healthcheck.ID (some (itemOf r))) })
    | some none =>
      -- exists with a nil pointer: `item.OK` dereferences nil
      .error .nilDereference
    | none =>
      -- not exists: a new record is stored under the ID, then filled
      .ok (StorageStatus.Added, { Urls := some (m.set r.Healthcheck.ID (some (itemOf r))) })

/-- Go `Storage.Update`: the returned status and the state file afterwards. -/
def Storage.Update (file : StorageFile) (r : HealthcheckResult) (io : WriteOutcome) :
    Except Panic (StorageStatus × StorageFile) :=
  match Storage.updateModel (Storage.readModel file) r with
  | .ok (status, model) => .ok (status, Storage.writeModel file model io)
  | .error p => .error p

/-! ## healthcheck.go -/

/-- Go `strings.Split(s, ":")`: the pieces between colons (one more piece than
there are colons; the empty string gives one empty piece). -/
def splitColon : List Char → List (List Char)
  | [] => [[]]
  | c :: cs =>
    if c = ':' then [] :: splitColon cs
    else
      match splitColon cs with
      | [] => [[c]]
      | p :: ps => (c :: p) :: ps

/-- Go `unicode.IsSpace`: the white space runes `strings.TrimSpace` removes. -/
def isSpace (c : Char) : Bool :=
  let n := c.toNat
  (9 ≤ n && n ≤ 13) || n == 32 || n == 0x85 || n == 0xA0 || n == 0x1680 ||
    (0x2000 ≤ n && n ≤ 0x200A) || n == 0x2028 || n == 0x2029 || n == 0x202F ||
    n == 0x205F || n == 0x3000

/-- Go `strings.TrimSpace`: drop leading and trailing white space. -/
def TrimSpace (s : List Char) : List Char :=
  ((s.dropWhile isSpace).reverse.dropWhile isSpace).reverse

/-- The `for i := len(parts) - 1; i >= 0; i--` loop of `NewErrorResult`;
the counter `n` is `i + 1`, and `str` is returned untouched when no trimmed
part is non-empty. -/
def lastSegmentLoop (parts : List (List Char)) : Nat → List Char → List Char
  | 0, str => str
  | i + 1, str =>
    let s := TrimSpace (parts.getD i [])
    if s ≠ [] then s else lastSegmentLoop parts i str

/-- Go `strings.LastIndex(s, ":")`; `none` stands for `-1`. -/
def lastIndexColon : List Char → Option Nat
  | [] => none
  | c :: cs =>
    match lastIndexColon cs with
    | some i => some (i + 1)
    | none => if c = ':' then some 0 else none

/-- The message text computed by `NewErrorResult`. -/
def errorMessage (str : List Char) : List Char :=
  let parts := splitColon str
  let str1 := lastSegmentLoop parts parts.length str
  match lastIndexColon str1 with
  | some i => str1.drop i
  | none => str1

/-- Go `NewOKResult`; `now` is the reading of `time.Now().UTC()`. -/
def NewOKResult (h : Healthcheck) (now : Time) : HealthcheckResult :=
  { Healthcheck := h, Time := now, OK := true, Message := "" }

/-- Go `NewErrorResult`; `now` is the reading of `time.Now().UTC()`. -/
def NewErrorResult (h : Healthcheck) (str : String) (now : Time) : HealthcheckResult :=
  { Healthcheck := h, Time := now, OK := false, Message := String.mk (errorMessage str.data) }

/-- What `client.Do(req)` returns. -/
inductive HttpOutcome where
  /-- A transport error with its `Error()` text. -/
  | transportError (text : String)
  /-- A response with `StatusCode` and `Status`. -/
  | response (code : Nat) (status : String)
  deriving DecidableEq, Repr

/-- Go `ExecuteHealthcheck`; a nil `h` panics at `h.URL`. -/
def ExecuteHealthcheck (http : URL → HttpOutcome) (now : Time) :
    Option Healthcheck → Except Panic HealthcheckResult
  | none => .error .nilDereference
  | some h =>
    match http h.URL with
    | .transportError text => .ok (NewErrorResult h text now)
    | .response code status =>
      if code ≥ 400 then
        .ok (NewErrorResult h ("non-successful response " ++ toString code ++ " " ++ status) now)
      else .ok (NewOKResult h now)

/-! ## config.go -/

/-- Go `NotificationConfigYAML`. -/
structure NotificationConfigYAML where
  SlackChannel : Option String
  SlackMentions : List String
  deriving DecidableEq, Repr

/-- Go `HealthcheckConfigYAML`. -/
structure HealthcheckConfigYAML where
  URL : String
  Name : String
  Notify : List (Option NotificationConfigYAML)
  deriving DecidableEq, Repr

/-- Go `ConfigYAML`. -/
structure ConfigYAML where
  Healthchecks : List (Option HealthcheckConfigYAML)
  Notify : List (Option NotificationConfigYAML)
  path : String
  deriving DecidableEq, Repr

/-- Library functions `createHealthcheck` calls: `url.Parse`, and the
URL-safe base64 of the SHA-1 of the lower-cased URL text. -/
structure UrlLib where
  parse : String → Except String URL
  digest : String → String

/-- The `for _, n := range h.Notify` loop: appends the channel and the
mentions of every block; a nil block panics. -/
def collectNotify : List (Option NotificationConfigYAML) → NotificationConfig →
    Except Panic NotificationConfig
  | [], acc => .ok acc
  | none :: _, _ => .error .nilDereference
  | some n :: rest, acc =>
    let chans :=
      match n.SlackChannel with
      | some ch => acc.SlackChannels ++ [ch]
      | none => acc.SlackChannels
    collectNotify rest { SlackChannels := chans, SlackMentions := acc.SlackMentions ++ n.SlackMentions }

/-- The first `for _, n := range c.Notify` loop: channels only. -/
def collectChannels : List (Option NotificationConfigYAML) → List String →
    Except Panic (List String)
  | [], acc => .ok acc
  | none :: _, _ => .error .nilDereference
  | some n :: rest, acc =>
    match n.SlackChannel with
    | some ch => collectChannels rest (acc ++ [ch])
    | none => collectChannels rest acc

/-- The second `for _, n := range c.Notify` loop: mentions only. -/
def collectMentions : List (Option NotificationConfigYAML) → List String →
    Except Panic (List String)
  | [], acc => .ok acc
  | none :: _, _ => .error .nilDereference
  | some n :: rest, acc => collectMentions rest (acc ++ n.SlackMentions)

/-- Go `ConfigYAML.createHealthcheck`: the Go pair `(*Healthcheck, error)`. -/
def ConfigYAML.createHealthcheck (lib : UrlLib) (c : ConfigYAML)
    (h : Option HealthcheckConfigYAML) :
    Except Panic (Option Healthcheck × Option String) :=
  match h with
  | none => .error .nilDereference
  | some h =>
    match lib.parse h.URL with
    | .error e => .ok (none, some e)
    | .ok u =>
      -- from here on the local `err` is nil
      let err : Option String := none
      let name := if h.Name = "" then u.hostname else h.Name
      match collectNotify h.Notify { SlackChannels := [], SlackMentions := [] } with
      | .error p => .error p
      | .ok own =>
        let chansR :=
          if own.SlackChannels.length = 0 then collectChannels c.Notify own.SlackChannels
          else .ok own.SlackChannels
        match chansR with
        | .error p => .error p
        | .ok chans =>
          if own.SlackChannels.length = 0 ∧ chans.length = 0 then .ok (none, err)
          else
            let mentsR :=
              if own.SlackMentions.length = 0 then collectMentions c.Notify own.SlackMentions
              else .ok own.SlackMentions
            match mentsR with
            | .error p => .error p
            | .ok ments =>
              .ok (some { ID := lib.digest u.text, URL := u, Name := name,
                          Notify := { SlackChannels := chans, SlackMentions := ments } }, none)

/-- The loop of `ParseConfig`; `done` is the filled prefix of
`config.Healthchecks`. -/
def ConfigYAML.parseLoop (lib : UrlLib) (c : ConfigYAML) :
    List (Option HealthcheckConfigYAML) → List (Option Healthcheck) →
    Except Panic (Option Config × Option String)
  | [], done => .ok (some { Healthchecks := done }, none)
  | h :: rest, done =>
    match c.createHealthcheck lib h with
    | .error p => .error p
    | .ok (_, some e) => .ok (none, some e)
    | .ok (hc, none) => ConfigYAML.parseLoop lib c rest (done ++ [hc])

/-- Go `ConfigYAML.ParseConfig`: the Go pair `(*Config, error)`. -/
def ConfigYAML.ParseConfig (lib : UrlLib) (c : ConfigYAML) :
    Except Panic (Option Config × Option String) :=
  ConfigYAML.parseLoop lib c c.Healthchecks []

/-- Go `LoadConfig`; `yaml` is what `LoadConfigYAML(ConfigPath)` returns. -/
def LoadConfig (lib : UrlLib) (yaml : Except String ConfigYAML) :
    Except Panic (Option Config × Option String) :=
  match yaml with
  | .error e => .ok (none, some e)
  | .ok y =>
    match y.ParseConfig lib with
    | .error p => .error p
    | .ok (_, some e) => .ok (none, some e)
    | .ok (config, none) => .ok (config, none)

/-! ## notify.go -/

/-- Go `slack.Attachment` with the four fields the notifier fills. -/
structure Attachment where
  Text : String
  Title : String
  Fallback : String
  Color : String
  deriving DecidableEq, Repr

/-- The `slack.MsgOption` values the notifier builds. -/
inductive MsgOption where
  | attachments (a : Attachment)
  | iconEmoji (emoji : String)
  | username (name : String)
  deriving DecidableEq, Repr

/-- The mention loop of `notifyCore`: `i` is the loop index. -/
def appendMentions : List String → Nat → String → String
  | [], _, text => text
  | m :: rest, i, text =>
    let text1 := if i > 0 then text ++ ", " else text
    appendMentions rest (i + 1) (text1 ++ ("<@" ++ m ++ ">"))

/-- The message options `notifyCore` builds before it sends anything. -/
def buildOptions (slackUsername : String) (r : HealthcheckResult)
    (title text emoji color : String) : List MsgOption :=
  let text1 :=
    if r.Healthcheck.Notify.SlackMentions.length > 0 then
      appendMentions r.Healthcheck.Notify.SlackMentions 0
        (if text.length > 0 then text ++ "\n" else text)
    else text
  let o1 : List MsgOption :=
    if text1.length > 0 then
      [MsgOption.attachments { Text := text1, Title := title, Fallback := title, Color := color }]
    else []
  let o2 := if emoji ≠ "" then o1 ++ [MsgOption.iconEmoji emoji] else o1
  if slackUsername ≠ "" then o2 ++ [MsgOption.username slackUsername] else o2

/-- The delivery loop of `notifyCore`: `send` is `slack.Client.SendMessage`
(its error, if any); the result is the channels a send was attempted on, in
order, and the returned error. -/
def sendLoop (send : String → List MsgOption → Option String) (options : List MsgOption) :
    List String → List String → List String × Option String
  | [], tried => (tried, none)
  | dest :: rest, tried =>
    match send dest options with
    | some err => (tried ++ [dest], some err)
    | none => sendLoop send options rest (tried ++ [dest])

/-- Go `Notifier.notifyCore`. -/
def Notifier.notifyCore (slackUsername : String)
    (send : String → List MsgOption → Option String) (r : HealthcheckResult)
    (title text emoji color : String) : List String × Option String :=
  sendLoop send (buildOptions slackUsername r title text emoji color)
    r.Healthcheck.Notify.SlackChannels []

/-- Go `Notifier.notifyHostDown`. -/
def Notifier.notifyHostDown (slackUsername : String)
    (send : String → List MsgOption → Option String) (r : HealthcheckResult) :
    List String × Option String :=
  Notifier.notifyCore slackUsername send r
    (":no_entry: \"" ++ r.Healthcheck.Name ++ "\" is down") ("`" ++ r.Message ++ "`")
    ":no_entry:" "#E72222"

/-- Go `Notifier.notifyHostUp`. -/
def Notifier.notifyHostUp (slackUsername : String)
    (send : String → List MsgOption → Option String) (r : HealthcheckResult) :
    List String × Option String :=
  Notifier.notifyCore slackUsername send r
    (":ok: \"" ++ r.Healthcheck.Name ++ "\" is up") "" ":ok:" "#22E722"

/-- Go `Notifier.Notify`: the channels a delivery was attempted on and the
returned error. -/
def Notifier.Notify (slackUsername : String)
    (send : String → List MsgOption → Option String) (r : HealthcheckResult) :
    List String × Option String :=
  if r.OK then Notifier.notifyHostUp slackUsername send r
  else Notifier.notifyHostDown slackUsername send r

/-- The options `Notify` ends up sending for result `r`: those of
`notifyHostUp` or of `notifyHostDown`. -/
def notifyOptions (slackUsername : String) (r : HealthcheckResult) : List MsgOption :=
  if r.OK then
    buildOptions slackUsername r (":ok: \"" ++ r.Healthcheck.Name ++ "\" is up") "" ":ok:"
      "#22E722"
  else
    buildOptions slackUsername r (":no_entry: \"" ++ r.Healthcheck.Name ++ "\" is down")
      ("`" ++ r.Message ++ "`") ":no_entry:" "#E72222"

/-! ## logic.go -/

/-- The expression assigned to `shouldNotify` in `runOnce`
(`&&` binds tighter than `||`). -/
def shouldNotify (initial : Bool) (st : StorageStatus) : Bool :=
  (initial && st == StorageStatus.Updated) || st != StorageStatus.NoChange

/-- Everything outside the process one cycle depends on. -/
structure Env where
  /-- Go `url.Parse` and the ID digest. -/
  lib : UrlLib
  /-- What `LoadConfigYAML(ConfigPath)` returns in this cycle. -/
  yaml : Except String ConfigYAML
  /-- The HTTP round trip of a probe. -/
  http : URL → HttpOutcome
  /-- Readings of `time.Now().UTC()`: reading `k` is taken by the probe of
  goroutine `k`, reading `n` (the number of targets) after the barrier. -/
  clock : Nat → Time
  /-- The outcome of the state-file write made by goroutine `k`. -/
  write : Nat → WriteOutcome
  /-- The iteration whose value of the range variable `h` goroutine `k` reads
  when it runs. The goroutines close over `h`: with one variable per
  iteration (Go 1.22 on) this is `k`; with one variable shared by the whole
  loop (before Go 1.22) it is any iteration from `k` to the last, the last
  one once the loop has finished. -/
  observed : Nat → Nat

/-- The state one cycle reads and writes, with a trace of its calls. -/
structure World where
  /-- The state file at `StoragePath`. -/
  storage : StorageFile
  /-- Field `lastCheckTime` of `Healthchecker`. -/
  lastCheckTime : Time
  /-- Targets handed to `Storage.Update`, in call order. -/
  updated : List Healthcheck
  /-- Results handed to `Notifier.Notify`, in call order. -/
  notified : List HealthcheckResult
  deriving DecidableEq, Repr

/-- The body of goroutine number `k`, which finds the target `h` in the range
variable it closes over. -/
def runTarget (env : Env) (initial : Bool) (k : Nat) (h : Option Healthcheck) (w : World) :
    Except Panic World :=
  match ExecuteHealthcheck env.http (env.clock k) h with
  | .error p => .error p
  | .ok r =>
    match Storage.Update w.storage r (env.write k) with
    | .error p => .error p
    | .ok (st, file) =>
      let w1 : World := { w with storage := file, updated := w.updated ++ [r.Healthcheck] }
      if shouldNotify initial st then .ok { w1 with notified := w1.notified ++ [r] }
      else .ok w1

/-- The index of the target goroutine `k` reads from the range variable in a
loop over `n` targets: the iteration `env.observed k`, kept between the
goroutine's own iteration `k` and the last iteration `n - 1`. -/
def observedIndex (env : Env) (n k : Nat) : Nat :=
  min (max (env.observed k) k) (n - 1)

/-- The fan-out of `runOnce` over the slice `targets`: one goroutine per
iteration, scheduled in iteration order (the storage lock serialises the
`Update` calls; a panic in a goroutine ends the process). Goroutine `k` works
on the target it reads from the range variable, `targets[observedIndex k]`;
the index is in range whenever a goroutine exists. -/
def runTargets (env : Env) (initial : Bool) (targets : List (Option Healthcheck)) :
    List (Option Healthcheck) → Nat → World → Except Panic World
  | [], _, w => .ok w
  | _ :: rest, k, w =>
    match runTarget env initial k
        (targets.getD (observedIndex env targets.length k) none) w with
    | .error p => .error p
    | .ok w1 => runTargets env initial targets rest (k + 1) w1

/-- The part of `runOnce` after the configuration is chosen: fan-out,
barrier, and the store of the completion time. -/
def Healthchecker.runCycle (env : Env) (initial : Bool) (config : Option Config)
    (w : World) : Except Panic ((Option Config × Option String) × World) :=
  match config with
  | none => .error .nilDereference
  | some config =>
    match runTargets env initial config.Healthchecks config.Healthchecks 0 w with
    | .error p => .error p
    | .ok w1 =>
      .ok ((some config, none),
        { w1 with lastCheckTime := env.clock config.Healthchecks.length })

/-- Go `Healthchecker.runOnce`: the returned Go pair `(*Config, error)` and the
world afterwards. -/
def Healthchecker.runOnce (env : Env) (initial : Bool) (prevConfig : Option Config)
    (w : World) : Except Panic ((Option Config × Option String) × World) :=
  match LoadConfig env.lib env.yaml with
  | .error p => .error p
  | .ok (_, some err) =>
    if prevConfig = none ∨ initial = false then .ok ((prevConfig, some err), w)
    else Healthchecker.runCycle env initial prevConfig w
  | .ok (config, none) => Healthchecker.runCycle env initial config w

/-- Smallest `time.Duration`. -/
def minDuration : Int := -(2 ^ 63)

/-- Largest `time.Duration`. -/
def maxDuration : Int := 2 ^ 63 - 1

/-- Two's-complement int64 result of an integer operation. -/
def wrapInt64 (x : Int) : Int := (x + 2 ^ 63) % 2 ^ 64 - 2 ^ 63

/-- Go `Time.Sub`: the difference, saturated to the `Duration` range. -/
def Time.Sub (t u : Time) : Int :=
  if t - u < minDuration then minDuration
  else if maxDuration < t - u then maxDuration
  else t - u

/-- Go `Healthchecker.isHealthy` with `LoopPeriod`, the stored `lastCheckTime`
and the reading `now` of `time.Now().UTC()`. -/
def Healthchecker.isHealthy (loopPeriod : Int) (lastCheckTime now : Time) : Bool :=
  let ago := Time.Sub now lastCheckTime
  if ago < wrapInt64 (2 * loopPeriod) then true else false

/-! ## main.go -/

/-- Go `time.Second` in nanoseconds. -/
def Second : Int := 1000000000

/-- Go `time.Minute` in nanoseconds. -/
def Minute : Int := 60 * Second

/-- The `LoopPeriod` step of `initialize`: `flagValue` is what the `-p` flag
holds. `LoopPeriod.Seconds() <= 1` compares whole seconds plus a fraction
below one with 1, which holds exactly when the count is at most `Second`. -/
def initializeLoopPeriod (flagValue : Int) : Int :=
  if flagValue ≤ Second then Minute else flagValue

/-! ## Sample values used to instantiate the properties -/

/-- A target with two notification channels. -/
def sampleCheck : Healthcheck :=
  { ID := "a", URL := { text := "http://a.example", hostname := "a.example" },
    Name := "a.example", Notify := { SlackChannels := ["ops", "dev"], SlackMentions := [] } }

/-- A successful result for `sampleCheck` captured at instant 5. -/
def sampleResult : HealthcheckResult :=
  { Healthcheck := sampleCheck, Time := 5, OK := true, Message := "" }

/-- A state map that already records `sampleCheck` as up at instant 1. -/
def sampleMap : UrlMap := [("a", some { Time := 1, OK := true, Message := "" })]

/-- Library stand-in: every URL text parses, the digest is the text. -/
def sampleLib : UrlLib :=
  { parse := fun s => .ok { text := s, hostname := "a.example" }, digest := fun s => s }

/-- A configuration file with one entry that names its own channel. -/
def sampleYaml : ConfigYAML :=
  { Healthchecks :=
      [some { URL := "a", Name := "", Notify := [some { SlackChannel := some "ops", SlackMentions := [] }] }],
    Notify := [], path := "config.yaml" }

/-- A configuration file with one entry and no channel anywhere. -/
def noChannelYaml : ConfigYAML :=
  { Healthchecks := [some { URL := "a", Name := "", Notify := [] }],
    Notify := [], path := "config.yaml" }

/-- The target `ParseConfig` makes of `sampleYaml` with `sampleLib`. -/
def parsedCheck : Healthcheck :=
  { ID := "a", URL := { text := "a", hostname := "a.example" }, Name := "a.example",
    Notify := { SlackChannels := ["ops"], SlackMentions := [] } }

/-- A cycle environment: the configuration loads, the target answers 200,
every write succeeds. -/
def sampleEnv : Env :=
  { lib := sampleLib, yaml := .ok sampleYaml, http := fun _ => HttpOutcome.response 200 "200 OK",
    clock := fun k => 5 + k, write := fun _ => WriteOutcome.written,
    observed := fun k => k }

/-- A second target. -/
def otherCheck : Healthcheck :=
  { ID := "b", URL := { text := "b", hostname := "b.example" }, Name := "b.example",
    Notify := { SlackChannels := ["ops"], SlackMentions := [] } }

/-- The environment of `sampleEnv` with a range variable shared by the whole
loop, read by every goroutine after the loop has finished. -/
def sharedVariableEnv : Env :=
  { sampleEnv with observed := fun _ => 1 }

/-- A world with no state file and no call made yet. -/
def sampleWorld : World :=
  { storage := StorageFile.absent, lastCheckTime := 0, updated := [], notified := [] }

/-- A Slack transport that rejects channel "ops" and accepts the others. -/
def opsFails : String → List MsgOption → Option String :=
  fun ch _ => if ch = "ops" then some "channel_not_found" else none

/-! ## Properties of the state store -/

theorem UrlMap.get_set_self (m : UrlMap) (key : String) (v : Option StorageItemModelJSON) :
    UrlMap.get (UrlMap.set m key v) key = some v := by
  induction m with
  | nil => simp [UrlMap.set, UrlMap.get]
  | cons e rest ih =>
    obtain ⟨k, w⟩ := e
    by_cases hk : k = key
    · simp [UrlMap.set, UrlMap.get, hk]
    · simp [UrlMap.set, UrlMap.get, hk, ih]

theorem UrlMap.get_set_other (m : UrlMap) (key other : String)
    (v : Option StorageItemModelJSON) (h : other ≠ key) :
    UrlMap.get (UrlMap.set m key v) other = UrlMap.get m other := by
  induction m with
  | nil => simp [UrlMap.set, UrlMap.get, Ne.symm h]
  | cons e rest ih =>
    obtain ⟨k, w⟩ := e
    by_cases hk : k = key
    · subst hk
      simp [UrlMap.set, UrlMap.get, Ne.symm h]
    · by_cases ho : k = other
      · subst ho
        simp [UrlMap.set, UrlMap.get, h]
      · simp [UrlMap.set, UrlMap.get, hk, ho, ih]

/-- C1: when the state file yields a map `m`, `Update` returns Added exactly
when `m` has no entry under the target ID, Updated exactly when it has a
record there whose success flag differs from the result's, and NoChange
exactly when it has a record there whose success flag equals the result's. -/
theorem update_classifies (file : StorageFile) (m : UrlMap) (r : HealthcheckResult)
    (io : WriteOutcome) (hm : (Storage.readModel file).Urls = some m) :
    ((∃ f, Storage.Update file r io = .ok (StorageStatus.Added, f)) ↔
        m.get r.Healthcheck.ID = none) ∧
    ((∃ f, Storage.Update file r io = .ok (StorageStatus.Updated, f)) ↔
        ∃ item, m.get r.Healthcheck.ID = some (some item) ∧ item.OK ≠ r.OK) ∧
    ((∃ f, Storage.Update file r io = .ok (StorageStatus.NoChange, f)) ↔
        ∃ item, m.get r.Healthcheck.ID = some (some item) ∧ item.OK = r.OK) := by
  rcases hg : UrlMap.get m r.Healthcheck.ID with _ | _ | item
  · simp [Storage.Update, Storage.updateModel, hm, hg]
  · simp [Storage.Update, Storage.updateModel, hm, hg]
  · by_cases hok : item.OK = r.OK
    · simp [Storage.Update, Storage.updateModel, hm, hg, hok]
    · have hok2 : ¬ r.OK = item.OK := fun h => hok h.symm
      simp [Storage.Update, Storage.updateModel, hm, hg, hok, hok2]

/-- C1 (witness): the classification at an absent state file. -/
theorem update_classifies_witness :
    ((∃ f, Storage.Update StorageFile.absent sampleResult WriteOutcome.written =
        .ok (StorageStatus.Added, f)) ↔ UrlMap.get [] sampleResult.Healthcheck.ID = none) ∧
    ((∃ f, Storage.Update StorageFile.absent sampleResult WriteOutcome.written =
        .ok (StorageStatus.Updated, f)) ↔
      ∃ item, UrlMap.get [] sampleResult.Healthcheck.ID = some (some item) ∧
        item.OK ≠ sampleResult.OK) ∧
    ((∃ f, Storage.Update StorageFile.absent sampleResult WriteOutcome.written =
        .ok (StorageStatus.NoChange, f)) ↔
      ∃ item, UrlMap.get [] sampleResult.Healthcheck.ID = some (some item) ∧
        item.OK = sampleResult.OK) :=
  update_classifies StorageFile.absent [] sampleResult WriteOutcome.written rfl

/-- C2: when the state file yields a map `m` whose entry under the target ID
is absent or a record, the model `Update` persists holds under that ID the
record made of the result's time, success flag and message, whatever status
is returned; with a successful write the state file holds exactly that
model. -/
theorem update_stores_result (file : StorageFile) (m : UrlMap) (r : HealthcheckResult)
    (hm : (Storage.readModel file).Urls = some m)
    (hrec : m.get r.Healthcheck.ID ≠ some none) :
    ∃ st m1,
      (∀ io, Storage.Update file r io =
        .ok (st, Storage.writeModel file { Urls := some m1 } io)) ∧
      Storage.Update file r WriteOutcome.written =
        .ok (st, StorageFile.decoded { Urls := some m1 }) ∧
      UrlMap.get m1 r.Healthcheck.ID =
        some (some { Time := r.Time, OK := r.OK, Message := r.Message }) := by
  rcases hg : UrlMap.get m r.Healthcheck.ID with _ | _ | item
  · refine ⟨StorageStatus.Added, m.set r.Healthcheck.ID (some (itemOf r)), ?_, ?_,
      UrlMap.get_set_self m _ _⟩
    · intro io
      simp [Storage.Update, Storage.updateModel, hm, hg]
    · simp [Storage.Update, Storage.updateModel, hm, hg, Storage.writeModel]
  · exact absurd hg hrec
  · refine ⟨if r.OK != item.OK then StorageStatus.Updated else StorageStatus.NoChange,
      m.set r.Healthcheck.ID (some (itemOf r)), ?_, ?_, UrlMap.get_set_self m _ _⟩
    · intro io
      simp [Storage.Update, Storage.updateModel, hm, hg]
    · simp [Storage.Update, Storage.updateModel, hm, hg, Storage.writeModel]
/-- C2 (witness): a NoChange update of a recorded target. -/
theorem update_stores_result_witness :
    ∃ st m1,
      (∀ io, Storage.Update (StorageFile.decoded { Urls := some sampleMap }) sampleResult io =
        .ok (st, Storage.writeModel (StorageFile.decoded { Urls := some sampleMap })
          { Urls := some m1 } io)) ∧
      Storage.Update (StorageFile.decoded { Urls := some sampleMap }) sampleResult
          WriteOutcome.written = .ok (st, StorageFile.decoded { Urls := some m1 }) ∧
      UrlMap.get m1 sampleResult.Healthcheck.ID =
        some (some { Time := sampleResult.Time, OK := sampleResult.OK,
                     Message := sampleResult.Message }) :=
  update_stores_result (StorageFile.decoded { Urls := some sampleMap }) sampleMap sampleResult
    rfl (by decide)

/-- Entries under other IDs are left as they were by `Update`. -/
theorem update_keeps_others (file : StorageFile) (r : HealthcheckResult)
    (st : StorageStatus) (model1 : StorageModelJSON) (other : String)
    (ho : other ≠ r.Healthcheck.ID)
    (h : Storage.updateModel (Storage.readModel file) r = .ok (st, model1)) :
    ∃ m m1, (Storage.readModel file).Urls = some m ∧ model1.Urls = some m1 ∧
      UrlMap.get m1 other = UrlMap.get m other := by
  unfold Storage.updateModel at h
  rcases hm : (Storage.readModel file).Urls with _ | m
  · simp [hm] at h
  · rcases hg : UrlMap.get m r.Healthcheck.ID with _ | _ | item
    · simp [hm, hg] at h
      refine ⟨m, m.set r.Healthcheck.ID (some (itemOf r)), rfl, ?_,
        UrlMap.get_set_other m _ other _ ho⟩
      rw [← h.2]
    · simp [hm, hg] at h
    · simp [hm, hg] at h
      refine ⟨m, m.set r.Healthcheck.ID (some (itemOf r)), rfl, ?_,
        UrlMap.get_set_other m _ other _ ho⟩
      rw [← h.2]

/-- An absent, unreadable or malformed state file is read as the empty map:
`Update` returns Added and hands a one-record map to `writeModel`. -/
theorem update_on_broken_file (file : StorageFile) (r : HealthcheckResult) (io : WriteOutcome)
    (hf : file = StorageFile.absent ∨ file = StorageFile.unreadable ∨
      file = StorageFile.malformed) :
    Storage.Update file r io =
      .ok (StorageStatus.Added,
        Storage.writeModel file { Urls := some [(r.Healthcheck.ID, some (itemOf r))] } io) := by
  rcases hf with h | h | h <;> subst h <;> rfl

/-- C7 (failing input): a state file that decodes without error to a model
with a nil `urls` map (an empty JSON object, or an object whose `urls` member
is null) makes `Update` panic with an assignment into a nil map, for every result and
every write outcome. -/
theorem update_nil_map_panics (r : HealthcheckResult) (io : WriteOutcome) :
    Storage.Update (StorageFile.decoded { Urls := none }) r io =
      .error Panic.nilMapAssign := rfl

/-- A state file with a null record under the target ID makes `Update` panic
with a nil dereference. -/
theorem update_null_record_panics (r : HealthcheckResult) (io : WriteOutcome) :
    Storage.Update (StorageFile.decoded { Urls := some [(r.Healthcheck.ID, none)] }) r io =
      .error Panic.nilDereference := by
  simp [Storage.Update, Storage.updateModel, Storage.readModel, UrlMap.get]

/-! ## Properties of the cycle -/

/-- C3: the notify decision of `runOnce` is true exactly when (the cycle is
the bootstrap cycle and the transition is Added) or the transition is not
NoChange; a NoChange transition never notifies. -/
theorem notify_decision (initial : Bool) (st : StorageStatus) :
    (shouldNotify initial st = true ↔
      (initial = true ∧ st = StorageStatus.Added) ∨ st ≠ StorageStatus.NoChange) ∧
    shouldNotify initial StorageStatus.NoChange = false := by
  cases initial <;> cases st <;> simp [shouldNotify]

/-- How the goroutine of one target uses the decision: after a probe result
`r` and an `Update` returning `st`, the result is handed to `Notify` exactly
when `shouldNotify` holds. -/
theorem runTarget_notified (env : Env) (initial : Bool) (k : Nat) (h : Option Healthcheck)
    (w : World) (r : HealthcheckResult) (st : StorageStatus) (file : StorageFile)
    (hp : ExecuteHealthcheck env.http (env.clock k) h = .ok r)
    (hu : Storage.Update w.storage r (env.write k) = .ok (st, file)) :
    runTarget env initial k h w =
      .ok { storage := file, lastCheckTime := w.lastCheckTime,
            updated := w.updated ++ [r.Healthcheck],
            notified := if shouldNotify initial st then w.notified ++ [r] else w.notified } := by
  unfold runTarget
  rw [hp]
  simp only [hu]
  split <;> rfl

/-- C4 (failing input): a steady-state cycle (`initial = false`) over an empty
state store classifies the target as Added and hands its result to `Notify`,
where the claim says an Added target is not notified outside bootstrap. -/
theorem steady_state_added_is_notified :
    (Storage.Update sampleWorld.storage (NewOKResult parsedCheck 5)
        WriteOutcome.written).toOption.map Prod.fst = some StorageStatus.Added ∧
    (Healthchecker.runOnce sampleEnv false (some { Healthchecks := [some parsedCheck] })
        sampleWorld).toOption.map (fun x => x.2.notified) =
      some [NewOKResult parsedCheck 5] := by
  decide

/-- The value of the decision on a steady-state cycle: true for Added and for
Updated alike. -/
theorem steady_state_decision (st : StorageStatus) :
    shouldNotify false st = true ↔ st = StorageStatus.Added ∨ st = StorageStatus.Updated := by
  cases st <;> simp [shouldNotify]

/-- The decision does not depend on `initial` at all: the term
`initial && st == StorageStateUpdated` is absorbed by `st != StorageStateNoChange`. -/
theorem decision_ignores_initial (initial : Bool) (st : StorageStatus) :
    shouldNotify initial st = (st != StorageStatus.NoChange) := by
  cases initial <;> cases st <;> rfl

/-- The fan-out over two targets: with one range variable per iteration each
goroutine updates its own target; with a shared range variable read after the
loop has finished both goroutines update the last target. -/
theorem fanout_two_targets :
    (Healthchecker.runCycle sampleEnv true
        (some { Healthchecks := [some parsedCheck, some otherCheck] })
        sampleWorld).toOption.map (fun x => x.2.updated) =
      some [parsedCheck, otherCheck] ∧
    (Healthchecker.runCycle sharedVariableEnv true
        (some { Healthchecks := [some parsedCheck, some otherCheck] })
        sampleWorld).toOption.map (fun x => x.2.updated) =
      some [otherCheck, otherCheck] := by
  decide

/-- C5 (failing input): on a steady-state cycle with a previous
configuration, a configuration that fails to load makes `runOnce` return the
previous configuration with the error at once: no target is probed or
updated and the completion time is not touched. -/
theorem steady_state_load_failure_returns (lib : UrlLib) (e : String)
    (http : URL → HttpOutcome) (clock : Nat → Time) (write : Nat → WriteOutcome)
    (observed : Nat → Nat)
    (prev : Config) (w : World) :
    Healthchecker.runOnce
        { lib := lib, yaml := .error e, http := http, clock := clock, write := write,
          observed := observed }
        false (some prev) w =
      .ok ((some prev, some e), w) := rfl

/-- At bootstrap (no previous configuration) a load failure returns the error
and leaves the world untouched. -/
theorem bootstrap_load_failure_returns (lib : UrlLib) (e : String)
    (http : URL → HttpOutcome) (clock : Nat → Time) (write : Nat → WriteOutcome)
    (observed : Nat → Nat)
    (initial : Bool) (w : World) :
    Healthchecker.runOnce
        { lib := lib, yaml := .error e, http := http, clock := clock, write := write,
          observed := observed }
        initial none w =
      .ok ((none, some e), w) := by
  simp [Healthchecker.runOnce, LoadConfig]

/-- The fallback to the previous configuration is taken only by a call with
`initial = true` and a previous configuration, a call the program never
makes. -/
theorem fallback_needs_initial (lib : UrlLib) (e : String)
    (http : URL → HttpOutcome) (clock : Nat → Time) (write : Nat → WriteOutcome)
    (observed : Nat → Nat)
    (prev : Config) (w : World) :
    Healthchecker.runOnce
        { lib := lib, yaml := .error e, http := http, clock := clock, write := write,
          observed := observed }
        true (some prev) w =
      Healthchecker.runCycle
        { lib := lib, yaml := .error e, http := http, clock := clock, write := write,
          observed := observed }
        true (some prev) w := by
  simp [Healthchecker.runOnce, LoadConfig]

/-! ## Properties of the configuration loader -/

/-- C6 (failing input): for a configuration with one entry whose URL parses
and with no channel of its own or in the global block, `ParseConfig` returns
a Config holding a nil Healthcheck together with a nil error. -/
theorem parse_no_channel_returns_nil_entry (digest : String → String) (u : URL)
    (url name path : String) :
    ConfigYAML.ParseConfig { parse := fun _ => .ok u, digest := digest }
        { Healthchecks := [some { URL := url, Name := name, Notify := [] }],
          Notify := [], path := path } =
      .ok (some { Healthchecks := [none] }, none) := rfl
/-- With a configuration that resolves to no channel, the bootstrap cycle
dereferences the nil Healthcheck. -/
theorem bootstrap_no_channel_panics :
    (Healthchecker.runOnce
        { lib := sampleLib, yaml := .ok noChannelYaml, http := sampleEnv.http,
          clock := sampleEnv.clock, write := sampleEnv.write,
          observed := sampleEnv.observed }
        true none sampleWorld).toOption = none ∧
    ConfigYAML.ParseConfig sampleLib noChannelYaml =
      .ok (some { Healthchecks := [none] }, none) := by
  constructor <;> rfl

/-- A Healthcheck that `createHealthcheck` does build has a channel. -/
theorem createHealthcheck_has_channel (lib : UrlLib) (c : ConfigYAML)
    (h : Option HealthcheckConfigYAML) (hc : Healthcheck) (e : Option String)
    (hres : c.createHealthcheck lib h = .ok (some hc, e)) :
    hc.Notify.SlackChannels ≠ [] := by
  unfold ConfigYAML.createHealthcheck at hres
  split at hres
  · simp at hres
  · split at hres
    · simp at hres
    · simp only at hres
      split at hres
      · simp at hres
      · split at hres
        · simp at hres
        · rename_i own _ _ chans hch
          split at hres
          · simp at hres
          · rename_i hnot
            split at hres
            · simp at hres
            · simp only [Except.ok.injEq, Prod.mk.injEq, Option.some.injEq] at hres
              rw [← hres.1]
              simp only
              intro hnil
              apply hnot
              subst hnil
              refine ⟨?_, rfl⟩
              by_contra hown
              simp only [hown, if_false, Except.ok.injEq] at hch
              rw [hch] at hown
              exact hown rfl

theorem parseLoop_channels (lib : UrlLib) (c : ConfigYAML)
    (todo : List (Option HealthcheckConfigYAML)) (done : List (Option Healthcheck))
    (cfg : Config) (e : Option String)
    (hdone : ∀ hc, some hc ∈ done → hc.Notify.SlackChannels ≠ [])
    (hres : ConfigYAML.parseLoop lib c todo done = .ok (some cfg, e)) :
    ∀ hc, some hc ∈ cfg.Healthchecks → hc.Notify.SlackChannels ≠ [] := by
  induction todo generalizing done with
  | nil =>
    simp only [ConfigYAML.parseLoop, Except.ok.injEq, Prod.mk.injEq, Option.some.injEq] at hres
    rw [← hres.1]
    exact hdone
  | cons h rest ih =>
    unfold ConfigYAML.parseLoop at hres
    split at hres
    · simp at hres
    · simp at hres
    · rename_i hc0 hcreate
      refine ih (done ++ [hc0]) ?_ hres
      intro hc hmem
      rcases List.mem_append.1 hmem with hm | hm
      · exact hdone hc hm
      · simp only [List.mem_singleton] at hm
        exact createHealthcheck_has_channel lib c h hc none (by rw [hcreate, ← hm])

/-- What does hold of a Config returned by `ParseConfig`: each entry that is
not nil has at least one channel. -/
theorem parseConfig_entries_have_channel (lib : UrlLib) (c : ConfigYAML) (cfg : Config)
    (e : Option String) (hres : c.ParseConfig lib = .ok (some cfg, e)) :
    ∀ hc, some hc ∈ cfg.Healthchecks → hc.Notify.SlackChannels ≠ [] :=
  parseLoop_channels lib c c.Healthchecks [] cfg e (by simp) hres

/-! ## Properties of the notifier -/

theorem sendLoop_spec (send : String → List MsgOption → Option String)
    (options : List MsgOption) (chans tried : List String) :
    sendLoop send options chans tried =
      (tried ++ (chans.takeWhile (fun c => (send c options).isNone) ++
          (chans.dropWhile (fun c => (send c options).isNone)).take 1),
        ((chans.dropWhile (fun c => (send c options).isNone)).head?).bind
          (fun c => send c options)) := by
  induction chans generalizing tried with
  | nil => simp [sendLoop]
  | cons c rest ih =>
    cases hc : send c options with
    | none => simp [sendLoop, hc, ih, List.takeWhile, List.dropWhile]
    | some e => simp [sendLoop, hc, List.takeWhile, List.dropWhile]

/-- C8 (counterexample): with channels "ops" and "dev" and a transport that
rejects "ops", `Notify` attempts "ops" only; "dev" is never attempted. -/
theorem notify_skips_after_failure :
    sampleResult.Healthcheck.Notify.SlackChannels = ["ops", "dev"] ∧
    opsFails "dev" (notifyOptions "UptimeMonitor" sampleResult) = none ∧
    Notifier.Notify "UptimeMonitor" opsFails sampleResult =
      (["ops"], some "channel_not_found") := by
  decide

/-- The delivery loop of `Notify` runs over the target's channel list with the
options of the result. -/
theorem notify_eq_sendLoop (slackUsername : String)
    (send : String → List MsgOption → Option String) (r : HealthcheckResult) :
    Notifier.Notify slackUsername send r =
      sendLoop send (notifyOptions slackUsername r) r.Healthcheck.Notify.SlackChannels [] := by
  unfold Notifier.Notify notifyOptions
  split
  · simp [Notifier.notifyHostUp, Notifier.notifyCore]
  · simp [Notifier.notifyHostDown, Notifier.notifyCore]

/-- C8 (amended): `Notify` attempts the channels in order up to and including
the first one whose delivery fails, and returns that failure; when no
delivery fails it attempts every channel and returns no error. -/
theorem notify_attempts_until_failure (slackUsername : String)
    (send : String → List MsgOption → Option String) (r : HealthcheckResult) :
    Notifier.Notify slackUsername send r =
      (r.Healthcheck.Notify.SlackChannels.takeWhile
            (fun c => (send c (notifyOptions slackUsername r)).isNone) ++
          (r.Healthcheck.Notify.SlackChannels.dropWhile
            (fun c => (send c (notifyOptions slackUsername r)).isNone)).take 1,
        ((r.Healthcheck.Notify.SlackChannels.dropWhile
            (fun c => (send c (notifyOptions slackUsername r)).isNone)).head?).bind
          (fun c => send c (notifyOptions slackUsername r))) := by
  rw [notify_eq_sendLoop, sendLoop_spec]
  simp

/-- When every delivery succeeds, every channel is attempted. -/
theorem notify_all_when_no_failure (slackUsername : String)
    (send : String → List MsgOption → Option String) (r : HealthcheckResult)
    (hall : ∀ c ∈ r.Healthcheck.Notify.SlackChannels,
      send c (notifyOptions slackUsername r) = none) :
    Notifier.Notify slackUsername send r = (r.Healthcheck.Notify.SlackChannels, none) := by
  have ht : r.Healthcheck.Notify.SlackChannels.takeWhile
      (fun c => (send c (notifyOptions slackUsername r)).isNone) =
      r.Healthcheck.Notify.SlackChannels := by
    rw [List.takeWhile_eq_self_iff]
    intro c hc
    simp [hall c hc]
  have hd : r.Healthcheck.Notify.SlackChannels.dropWhile
      (fun c => (send c (notifyOptions slackUsername r)).isNone) = [] := by
    rw [List.dropWhile_eq_nil_iff]
    intro c hc
    simp [hall c hc]
  rw [notify_eq_sendLoop, sendLoop_spec, ht, hd]
  simp
/-- A failing delivery ends the loop: the channels after it are not
attempted. -/
theorem notify_stops_at_failure (slackUsername : String)
    (send : String → List MsgOption → Option String) (r : HealthcheckResult)
    (before after : List String) (c e : String)
    (hsplit : r.Healthcheck.Notify.SlackChannels = before ++ c :: after)
    (hbefore : ∀ x ∈ before, send x (notifyOptions slackUsername r) = none)
    (hc : send c (notifyOptions slackUsername r) = some e) :
    Notifier.Notify slackUsername send r = (before ++ [c], some e) := by
  rw [notify_eq_sendLoop, hsplit]
  have key : ∀ (l tried : List String),
      (∀ x ∈ l, send x (notifyOptions slackUsername r) = none) →
      sendLoop send (notifyOptions slackUsername r) (l ++ c :: after) tried =
        (tried ++ (l ++ [c]), some e) := by
    intro l
    induction l with
    | nil =>
      intro tried _
      simp [sendLoop, hc]
    | cons x rest ih =>
      intro tried hx
      have hx0 : send x (notifyOptions slackUsername r) = none := hx x (by simp)
      have hrest : ∀ y ∈ rest, send y (notifyOptions slackUsername r) = none :=
        fun y hy => hx y (by simp [hy])
      simp [sendLoop, hx0, ih (tried ++ [x]) hrest]
  simpa using key before [] hbefore

/-! ## Properties of the liveness predicate -/

theorem wrapInt64_of_range (x : Int) (hlo : -(2 ^ 63) ≤ x) (hhi : x < 2 ^ 63) :
    wrapInt64 x = x := by
  unfold wrapInt64
  rw [Int.emod_eq_of_lt (by omega) (by omega)]
  omega

/-- C9 (counterexample): the period of 2^62 nanoseconds is a `Duration`
above one second that `initialize` keeps, and with it `isHealthy` is false at
the instant a cycle completes, although 0 is below twice the period. -/
theorem liveness_overflow :
    Second < 2 ^ 62 ∧ (2 : Int) ^ 62 ≤ maxDuration ∧
    initializeLoopPeriod (2 ^ 62) = 2 ^ 62 ∧
    Healthchecker.isHealthy (initializeLoopPeriod (2 ^ 62)) 7 7 = false ∧
    (7 : Int) - 7 < 2 * 2 ^ 62 := by
  decide

/-- C9 (amended): for every period above one second and below 2^62
nanoseconds, `isHealthy` is true exactly when `now - lastCheckTime` is below
twice the period; so it is true at the instant a cycle completes and false
once twice the period has passed. -/
theorem liveness_iff (period lastCheckTime now : Int)
    (hlo : Second < period) (hhi : period < 2 ^ 62) :
    (Healthchecker.isHealthy (initializeLoopPeriod period) lastCheckTime now = true ↔
      now - lastCheckTime < 2 * period) ∧
    Healthchecker.isHealthy (initializeLoopPeriod period) lastCheckTime lastCheckTime = true ∧
    (2 * period ≤ now - lastCheckTime →
      Healthchecker.isHealthy (initializeLoopPeriod period) lastCheckTime now = false) := by
  have hsec : (0 : Int) < Second := by decide
  have hinit : initializeLoopPeriod period = period := by
    unfold initializeLoopPeriod
    rw [if_neg (by omega)]
  have hwrap : wrapInt64 (2 * period) = 2 * period :=
    wrapInt64_of_range _ (by omega) (by omega)
  have main : ∀ t : Int,
      (Healthchecker.isHealthy period lastCheckTime t = true ↔ t - lastCheckTime < 2 * period) := by
    intro t
    unfold Healthchecker.isHealthy Time.Sub minDuration maxDuration
    simp only [hwrap]
    split_ifs <;> simp <;> simp only [Time] at * <;> omega
  rw [hinit]
  refine ⟨main now, (main lastCheckTime).2 (by omega), fun h => ?_⟩
  have := main now
  cases hb : Healthchecker.isHealthy period lastCheckTime now
  · rfl
  · rw [hb] at this
    have := this.1 rfl
    omega

/-- C9 (witness): the default period of one minute, one nanosecond before
twice the period has passed. -/
theorem liveness_iff_witness :
    (Healthchecker.isHealthy (initializeLoopPeriod Minute) 0 (2 * Minute - 1) = true ↔
      2 * Minute - 1 - 0 < 2 * Minute) ∧
    Healthchecker.isHealthy (initializeLoopPeriod Minute) 0 0 = true ∧
    (2 * Minute ≤ 2 * Minute - 1 - 0 →
      Healthchecker.isHealthy (initializeLoopPeriod Minute) 0 (2 * Minute - 1) = false) :=
  liveness_iff Minute 0 (2 * Minute - 1) (by decide) (by decide)
/-! ## Properties of the failure reason -/

theorem splitColon_ne_nil (s : List Char) : splitColon s ≠ [] := by
  cases s with
  | nil => simp [splitColon]
  | cons c cs =>
    unfold splitColon
    split
    · simp
    · split <;> simp

theorem splitColon_no_colon (s : List Char) : ∀ p ∈ splitColon s, ':' ∉ p := by
  induction s with
  | nil => simp [splitColon]
  | cons c cs ih =>
    intro p hp
    unfold splitColon at hp
    by_cases hc : c = ':'
    · simp only [hc, if_true, List.mem_cons] at hp
      rcases hp with hp | hp
      · simp [hp]
      · exact ih p hp
    · simp only [hc, if_false] at hp
      rcases hs : splitColon cs with _ | ⟨q, qs⟩
      · exact absurd hs (splitColon_ne_nil cs)
      · rw [hs] at hp ih
        simp only [List.mem_cons] at hp
        rcases hp with hp | hp
        · subst hp
          have hq := ih q (by simp)
          simp only [List.mem_cons, not_or]
          exact ⟨fun h => hc h.symm, hq⟩
        · exact ih p (by simp [hp])

/-- Joining the pieces with colons gives the text back, so the pieces are the
colon-delimited segments of the text. -/
theorem splitColon_join (s : List Char) : [':'].intercalate (splitColon s) = s := by
  induction s with
  | nil => simp [splitColon, List.intercalate]
  | cons c cs ih =>
    unfold splitColon
    rcases hs : splitColon cs with _ | ⟨q, qs⟩
    · exact absurd hs (splitColon_ne_nil cs)
    · rw [hs] at ih
      by_cases hc : c = ':'
      · simp only [hc, if_true]
        simp only [List.intercalate, List.intersperse] at ih ⊢
        simp only [List.flatten_cons, List.nil_append, List.singleton_append, ih]
      · simp only [hc, if_false]
        cases qs with
        | nil =>
          simp only [List.intercalate, List.intersperse] at ih ⊢
          simp only [List.flatten_cons, List.flatten_nil, List.append_nil] at ih ⊢
          rw [ih]
        | cons q2 qs2 =>
          simp only [List.intercalate, List.intersperse] at ih ⊢
          simp only [List.flatten_cons, List.cons_append] at ih ⊢
          rw [ih]
theorem TrimSpace_subset (s : List Char) : ∀ c ∈ TrimSpace s, c ∈ s := by
  intro c hc
  unfold TrimSpace at hc
  rw [List.mem_reverse] at hc
  have h1 := (List.dropWhile_suffix isSpace).subset hc
  rw [List.mem_reverse] at h1
  exact (List.dropWhile_suffix isSpace).subset h1

/-- Trimming removes white space only, and only at the two ends. -/
theorem TrimSpace_decomp (s : List Char) :
    ∃ lead trail, s = lead ++ TrimSpace s ++ trail ∧
      (∀ c ∈ lead, isSpace c = true) ∧ (∀ c ∈ trail, isSpace c = true) := by
  refine ⟨s.takeWhile isSpace,
    (((s.dropWhile isSpace).reverse).takeWhile isSpace).reverse, ?_, ?_, ?_⟩
  · have h1 : s = s.takeWhile isSpace ++ s.dropWhile isSpace :=
      (List.takeWhile_append_dropWhile isSpace s).symm
    have h2 : (s.dropWhile isSpace).reverse =
        ((s.dropWhile isSpace).reverse).takeWhile isSpace ++
          ((s.dropWhile isSpace).reverse).dropWhile isSpace :=
      (List.takeWhile_append_dropWhile isSpace _).symm
    have h3 : s.dropWhile isSpace =
        (((s.dropWhile isSpace).reverse).dropWhile isSpace).reverse ++
          (((s.dropWhile isSpace).reverse).takeWhile isSpace).reverse := by
      rw [← List.reverse_append, ← h2, List.reverse_reverse]
    unfold TrimSpace
    rw [List.append_assoc, ← h3, ← h1]
  · intro c hc
    exact List.mem_takeWhile_imp hc
  · intro c hc
    rw [List.mem_reverse] at hc
    exact List.mem_takeWhile_imp hc

theorem lastIndexColon_none (s : List Char) (h : ':' ∉ s) : lastIndexColon s = none := by
  induction s with
  | nil => rfl
  | cons c cs ih =>
    simp only [List.mem_cons, not_or] at h
    have hc : ¬ c = ':' := fun e => h.1 e.symm
    simp [lastIndexColon, ih h.2, hc]

theorem lastSegmentLoop_succ (parts : List (List Char)) (i : Nat) (str : List Char) :
    lastSegmentLoop parts (i + 1) str =
      if TrimSpace (parts.getD i []) ≠ [] then TrimSpace (parts.getD i [])
      else lastSegmentLoop parts i str := rfl

theorem lastSegmentLoop_skip (front back : List (List Char)) (str : List Char)
    (hback : ∀ q ∈ back, TrimSpace q = []) (k : Nat) (hk : k ≤ back.length) :
    lastSegmentLoop (front ++ back) (front.length + k) str =
      lastSegmentLoop (front ++ back) front.length str := by
  induction k with
  | zero => rfl
  | succ k ih =>
    have hlt : k < back.length := by omega
    have hget : (front ++ back).getD (front.length + k) [] = back[k] := by
      rw [List.getD_append_right _ _ _ _ (by omega), Nat.add_sub_cancel_left,
        List.getD_eq_getElem _ _ hlt]
    have htrim : TrimSpace ((front ++ back).getD (front.length + k) []) = [] := by
      rw [hget]
      exact hback _ (List.getElem_mem hlt)
    rw [← Nat.add_assoc, lastSegmentLoop_succ, htrim]
    simp only [ne_eq, not_true_eq_false, if_false]
    exact ih (by omega)

theorem lastSegmentLoop_hit (before after : List (List Char)) (seg str : List Char)
    (hseg : TrimSpace seg ≠ []) :
    lastSegmentLoop (before ++ seg :: after) (before.length + 1) str = TrimSpace seg := by
  have hget : (before ++ seg :: after).getD before.length [] = seg := by
    rw [List.getD_append_right _ _ _ _ (le_refl _)]
    simp
  rw [lastSegmentLoop_succ, hget]
  simp only [ne_eq, hseg, not_false_eq_true, if_true]

theorem lastSegmentLoop_last (before after : List (List Char)) (seg str : List Char)
    (hseg : TrimSpace seg ≠ []) (hafter : ∀ q ∈ after, TrimSpace q = []) :
    lastSegmentLoop (before ++ seg :: after) (before ++ seg :: after).length str =
      TrimSpace seg := by
  have hsplit : before ++ seg :: after = (before ++ [seg]) ++ after := by simp
  have hlen : (before ++ seg :: after).length = (before ++ [seg]).length + after.length := by
    simp
    omega
  rw [hlen, hsplit, lastSegmentLoop_skip (before ++ [seg]) after str hafter after.length
    (le_refl _)]
  have := lastSegmentLoop_hit before after seg str hseg
  simpa using this

theorem exists_last_segment (parts : List (List Char))
    (h : ∃ p ∈ parts, TrimSpace p ≠ []) :
    ∃ before seg after, parts = before ++ seg :: after ∧ TrimSpace seg ≠ [] ∧
      ∀ q ∈ after, TrimSpace q = [] := by
  induction parts with
  | nil => simp at h
  | cons a rest ih =>
    by_cases hrest : ∃ p ∈ rest, TrimSpace p ≠ []
    · obtain ⟨before, seg, after, hsplit, hseg, hafter⟩ := ih hrest
      exact ⟨a :: before, seg, after, by simp [hsplit], hseg, hafter⟩
    · have hall : ∀ q ∈ rest, TrimSpace q = [] := by
        intro q hq
        by_contra hne
        exact hrest ⟨q, hq, hne⟩
      obtain ⟨p, hp, hne⟩ := h
      rcases List.mem_cons.1 hp with hpa | hpr
      · subst hpa
        exact ⟨[], p, rest, rfl, hne, hall⟩
      · exact absurd (hall p hpr) hne

/-- C10: for an error text with a colon-delimited segment that is non-empty
after trimming, the Message of `NewErrorResult` is the last such segment,
trimmed; it contains no colon, the result has OK = false and refers to the
given target. -/
theorem error_result_last_segment (h : Healthcheck) (text : String) (now : Time)
    (hseg : ∃ p ∈ splitColon text.data, TrimSpace p ≠ []) :
    ∃ before seg after,
      splitColon text.data = before ++ seg :: after ∧
      TrimSpace seg ≠ [] ∧ (∀ q ∈ after, TrimSpace q = []) ∧
      (NewErrorResult h text now).Message = String.mk (TrimSpace seg) ∧
      ':' ∉ (NewErrorResult h text now).Message.data ∧
      (NewErrorResult h text now).OK = false ∧
      (NewErrorResult h text now).Healthcheck = h := by
  obtain ⟨before, seg, after, hsplit, hne, hafter⟩ := exists_last_segment _ hseg
  have hnocolon : ':' ∉ TrimSpace seg := by
    intro hc
    have hmem : seg ∈ splitColon text.data := by
      rw [hsplit]
      simp
    exact splitColon_no_colon text.data seg hmem (TrimSpace_subset seg _ hc)
  have hmsg : errorMessage text.data = TrimSpace seg := by
    unfold errorMessage
    simp only [hsplit]
    rw [lastSegmentLoop_last before after seg text.data hne hafter,
      lastIndexColon_none _ hnocolon]
  refine ⟨before, seg, after, hsplit, hne, hafter, ?_, ?_, rfl, rfl⟩
  · simp [NewErrorResult, hmsg]
  · simp [NewErrorResult, hmsg, hnocolon]

/-- C10 (witness): a transport error text with a blank last segment. -/
theorem error_result_last_segment_witness :
    (∃ p ∈ splitColon "dial tcp: i/o timeout : ".data, TrimSpace p ≠ []) ∧
    ∃ before seg after,
      splitColon "dial tcp: i/o timeout : ".data = before ++ seg :: after ∧
      TrimSpace seg ≠ [] ∧ (∀ q ∈ after, TrimSpace q = []) ∧
      (NewErrorResult sampleCheck "dial tcp: i/o timeout : " 5).Message =
        String.mk (TrimSpace seg) ∧
      ':' ∉ (NewErrorResult sampleCheck "dial tcp: i/o timeout : " 5).Message.data ∧
      (NewErrorResult sampleCheck "dial tcp: i/o timeout : " 5).OK = false ∧
      (NewErrorResult sampleCheck "dial tcp: i/o timeout : " 5).Healthcheck = sampleCheck :=
  ⟨by decide, error_result_last_segment sampleCheck "dial tcp: i/o timeout : " 5 (by decide)⟩

/-- The computed Message of a typical transport error. -/
theorem error_result_example :
    (NewErrorResult sampleCheck "dial tcp: i/o timeout : " 5).Message = "i/o timeout" := by
  decide

/-- Outside the hypothesis of C10 (no segment is non-empty after trimming)
the Message is the text from its last colon on. -/
theorem error_result_blank_example :
    (NewErrorResult sampleCheck " : " 5).Message = ": " ∧
    (NewErrorResult sampleCheck "" 5).Message = "" := by
  decide

end UptimeMonitor
